import Mathlib

/-!
Shallow embedding of `battleship.go` (repository BykovIlya/battleship).

Go `int` values are modelled as `Int`; Go runes as `Char`; the mutable
receiver of each Go method becomes explicit state passing (the method
returns the updated value).  A Go slice access `Cells[r][c]` panics when
the index is out of range, so the embedded grid accessors return
`Option`/fail with `none`; `Game.TakeShot` is therefore
`Option`-valued, with `none` standing for an out-of-range slice access
(a Go panic).  Error returns of `TakeShot` become `Except ShotError`.
-/

namespace Battleship

/-- Embeds Go struct `BasicShip` (src/battleship.go lines 21-25). -/
structure BasicShip where
  Row : Int
  Col : Int
  hp : Int
deriving Repr, DecidableEq

/-- Embeds `NewBasicShip` (lines 27-29): hp starts at 1. -/
def NewBasicShip (row col : Int) : BasicShip :=
  { Row := row, Col := col, hp := 1 }

/-- Embeds `(*BasicShip).Position` (line 31). -/
def BasicShip.Position (s : BasicShip) : Int × Int := (s.Row, s.Col)

/-- Embeds `(*BasicShip).Alive` (line 32): `s.hp > 0`. -/
def BasicShip.Alive (s : BasicShip) : Bool := decide (s.hp > 0)

/-- Embeds `(*BasicShip).TakeHit` (lines 33-39); the Bool is the Go
return value, the second component the mutated receiver. -/
def BasicShip.TakeHit (s : BasicShip) : Bool × BasicShip :=
  if s.hp ≤ 0 then (true, s)
  else
    let s' : BasicShip := { s with hp := s.hp - 1 }
    (decide (s'.hp ≤ 0), s')

/-- Embeds Go struct `ArmoredShip` (lines 41-45). -/
structure ArmoredShip where
  Row : Int
  Col : Int
  Armor : Int
deriving Repr, DecidableEq

/-- Embeds `NewArmoredShip` (lines 47-49). -/
def NewArmoredShip (row col armor : Int) : ArmoredShip :=
  { Row := row, Col := col, Armor := armor }

/-- Embeds `(*ArmoredShip).Position` (line 51). -/
def ArmoredShip.Position (s : ArmoredShip) : Int × Int := (s.Row, s.Col)

/-- Embeds `(*ArmoredShip).Alive` (line 52): `s.Armor > 0`. -/
def ArmoredShip.Alive (s : ArmoredShip) : Bool := decide (s.Armor > 0)

/-- Embeds `(*ArmoredShip).TakeHit` (lines 53-59). -/
def ArmoredShip.TakeHit (s : ArmoredShip) : Bool × ArmoredShip :=
  if s.Armor ≤ 0 then (true, s)
  else
    let s' : ArmoredShip := { s with Armor := s.Armor - 1 }
    (decide (s'.Armor ≤ 0), s')

/-- The Go interface `Ship` (lines 15-19): its two implementations as a
sum. -/
inductive Ship where
  | basic : BasicShip → Ship
  | armored : ArmoredShip → Ship
deriving Repr, DecidableEq

/-- Dynamic dispatch of `Position` through the `Ship` interface. -/
def Ship.Position : Ship → Int × Int
  | .basic s => s.Position
  | .armored s => s.Position

/-- Dynamic dispatch of `Alive` through the `Ship` interface. -/
def Ship.Alive : Ship → Bool
  | .basic s => s.Alive
  | .armored s => s.Alive

/-- Dynamic dispatch of `TakeHit` through the `Ship` interface. -/
def Ship.TakeHit : Ship → Bool × Ship
  | .basic s => let p := s.TakeHit; (p.1, .basic p.2)
  | .armored s => let p := s.TakeHit; (p.1, .armored p.2)

/-- Embeds Go struct `Board` (lines 61-64): `Cells [][]rune` as a list
of rows. -/
structure Board where
  Size : Int
  Cells : List (List Char)
deriving Repr, DecidableEq

/-- Embeds `NewBoard` (lines 66-76): a `size × size` grid of `'.'`. -/
def NewBoard (size : Int) : Board :=
  { Size := size
    Cells := List.replicate size.toNat (List.replicate size.toNat '.') }

/-- Embeds `(*Board).InBounds` (lines 78-80). -/
def Board.InBounds (b : Board) (r c : Int) : Bool :=
  decide (r ≥ 0) && decide (r < b.Size) && decide (c ≥ 0) && decide (c < b.Size)

/-- The Go slice read `b.Cells[r][c]`: `none` models the index-out-of-range
panic (negative index, or index past the slice length). -/
def Board.getCell (b : Board) (r c : Int) : Option Char :=
  if decide (r < 0) || decide (c < 0) then none
  else (b.Cells[r.toNat]?).bind fun row => row[c.toNat]?

/-- The Go slice write `b.Cells[r][c] = ch`: `none` models the
index-out-of-range panic. -/
def Board.setCell (b : Board) (r c : Int) (ch : Char) : Option Board :=
  if decide (r < 0) || decide (c < 0) then none
  else
    match b.Cells[r.toNat]? with
    | none => none
    | some row =>
      if decide (c.toNat < row.length) then
        some { b with Cells := b.Cells.set r.toNat (row.set c.toNat ch) }
      else none

/-- Well-formedness of a board, as established by `NewBoard`: the grid
really is `Size × Size`. -/
def Board.WF (b : Board) : Prop :=
  b.Cells.length = b.Size.toNat ∧ ∀ row ∈ b.Cells, row.length = b.Size.toNat

instance (b : Board) : Decidable b.WF := by
  unfold Board.WF; infer_instance

/-- Embeds Go struct `Game` (lines 96-101). -/
structure Game where
  Board : Board
  Ship : Ship
  Over : Bool
  Shots : Int
deriving Repr, DecidableEq

/-- Embeds Go struct `ShotResult` (lines 103-106). -/
structure ShotResult where
  Hit : Bool
  Destroyed : Bool
deriving Repr, DecidableEq

/-- The two error returns of `TakeShot`: `GameAlreadyOver` is the Go
string "game is allready done" (line 122), `OutOfBounds` the string
"out of range" (line 125). -/
inductive ShotError where
  | GameAlreadyOver
  | OutOfBounds
deriving Repr, DecidableEq

/-- Embeds `NewGame` (lines 108-113): `Over` and `Shots` take Go zero
values. -/
def NewGame (boardSize : Int) (ship : Ship) : Game :=
  { Board := NewBoard boardSize, Ship := ship, Over := false, Shots := 0 }

/-- Embeds `(*Game).TakeShot` (lines 120-147).  The result pairs the Go
return values (an `Except` of the error or the `ShotResult`) with the
updated game; an early error return leaves the game untouched.  `none`
models an out-of-range slice access inside the body (a Go panic). -/
def Game.TakeShot (g : Game) (r c : Int) :
    Option (Except ShotError ShotResult × Game) :=
  if g.Over then some (.error .GameAlreadyOver, g)
  else if !(g.Board.InBounds r c) then some (.error .OutOfBounds, g)
  else
    let g1 : Game := { g with Shots := g.Shots + 1 }
    let shipPos := g1.Ship.Position
    if decide (r = shipPos.1) && decide (c = shipPos.2) && g1.Ship.Alive then
      let hit := g1.Ship.TakeHit
      let destroyed := hit.1
      match g1.Board.setCell r c (if destroyed then 'X' else 'H') with
      | none => none
      | some b' =>
        some (.ok { Hit := true, Destroyed := destroyed },
          { g1 with Board := b', Ship := hit.2,
                    Over := if destroyed then true else g1.Over })
    else
      match g1.Board.getCell r c with
      | none => none
      | some ch =>
        if ch == '.' then
          match g1.Board.setCell r c 'o' with
          | none => none
          | some b' =>
            some (.ok { Hit := false, Destroyed := false }, { g1 with Board := b' })
        else
          some (.ok { Hit := false, Destroyed := false }, g1)

/-- Iterated `TakeHit` on an armored ship: the state after `k` hits. -/
def ArmoredShip.hitN (s : ArmoredShip) : Nat → ArmoredShip
  | 0 => s
  | k + 1 => (s.hitN k).TakeHit.2

/-- A whole play: the game produced by feeding a list of coordinates to
`TakeShot` in order (as the console loop and the HTTP handler do).  A
shot whose embedding fails (`none`, a Go panic) is skipped. -/
def Game.runShots (g : Game) : List (Int × Int) → Game
  | [] => g
  | (r, c) :: rest =>
    match g.TakeShot r c with
    | some (_, g') => g'.runShots rest
    | none => g.runShots rest

/-- The cell-marker invariant of C9: every cell holds one of
`'.'`, `'o'`, `'H'`, `'X'`, and a cell away from the ship's position
holds only `'.'` or `'o'`. -/
def Game.CellInv (g : Game) : Prop :=
  ∀ i j : Nat, ∀ ch : Char, g.Board.getCell i j = some ch →
    (ch = '.' ∨ ch = 'o' ∨ ch = 'H' ∨ ch = 'X') ∧
    (g.Ship.Position ≠ ((i : Int), (j : Int)) → (ch = '.' ∨ ch = 'o'))

lemma ArmoredShip.takeHit_of_pos (s : ArmoredShip) (h : 0 < s.Armor) :
    s.TakeHit = (decide (s.Armor ≤ 1), { s with Armor := s.Armor - 1 }) := by
  rw [ArmoredShip.TakeHit, if_neg (by omega)]
  refine Prod.ext ?_ rfl
  simp only [decide_eq_decide]
  omega

lemma ArmoredShip.hitN_armor (s : ArmoredShip) (k : Nat) (h : (k : Int) ≤ s.Armor) :
    (s.hitN k).Armor = s.Armor - k := by
  induction k with
  | zero => simp [ArmoredShip.hitN]
  | succ k ih =>
    have hk : (k : Int) ≤ s.Armor := by push_cast at h ⊢; omega
    have ih' := ih hk
    have hpos : 0 < (s.hitN k).Armor := by rw [ih']; push_cast at h; omega
    rw [ArmoredShip.hitN, ArmoredShip.takeHit_of_pos _ hpos]
    simp only [ih']
    push_cast
    ring

lemma Ship.takeHit_position (s : Ship) : s.TakeHit.2.Position = s.Position := by
  cases s with
  | basic b =>
    simp only [Ship.TakeHit, Ship.Position, BasicShip.TakeHit]
    split <;> rfl
  | armored a =>
    simp only [Ship.TakeHit, Ship.Position, ArmoredShip.TakeHit]
    split <;> rfl

lemma NewBoard_WF (n : Int) : (NewBoard n).WF := by
  refine ⟨by simp [NewBoard], fun row hrow => ?_⟩
  have h2 : 0 < n ∧ row = List.replicate n.toNat '.' := by
    simpa [NewBoard] using hrow
  rw [h2.2]
  simp [NewBoard]

lemma Board.inBounds_spec (b : Board) (r c : Int) :
    b.InBounds r c = true ↔ (0 ≤ r ∧ r < b.Size ∧ 0 ≤ c ∧ c < b.Size) := by
  simp [Board.InBounds, and_assoc, ge_iff_le]

lemma Board.getCell_isSome (b : Board) (hW : b.WF) (r c : Int)
    (h : b.InBounds r c = true) : ∃ ch, b.getCell r c = some ch := by
  obtain ⟨hr0, hrs, hc0, hcs⟩ := (b.inBounds_spec r c).mp h
  obtain ⟨hlen, hrows⟩ := hW
  have hr : r.toNat < b.Cells.length := by omega
  have hcol : c.toNat < (b.Cells[r.toNat]).length := by
    rw [hrows _ (List.getElem_mem hr)]
    omega
  refine ⟨b.Cells[r.toNat][c.toNat], ?_⟩
  rw [Board.getCell,
    if_neg (by simp only [Bool.or_eq_true, decide_eq_true_iff]; omega),
    List.getElem?_eq_getElem hr, Option.some_bind, List.getElem?_eq_getElem hcol]

lemma Board.setCell_isSome (b : Board) (hW : b.WF) (r c : Int)
    (h : b.InBounds r c = true) (ch : Char) :
    ∃ b', b.setCell r c ch = some b' := by
  obtain ⟨hr0, hrs, hc0, hcs⟩ := (b.inBounds_spec r c).mp h
  obtain ⟨hlen, hrows⟩ := hW
  have hr : r.toNat < b.Cells.length := by omega
  have hcol : c.toNat < (b.Cells[r.toNat]).length := by
    rw [hrows _ (List.getElem_mem hr)]
    omega
  refine ⟨{ b with
    Cells := b.Cells.set r.toNat ((b.Cells[r.toNat]).set c.toNat ch) }, ?_⟩
  rw [Board.setCell,
    if_neg (by simp only [Bool.or_eq_true, decide_eq_true_iff]; omega),
    List.getElem?_eq_getElem hr]
  simp only [decide_eq_true (by exact hcol), if_true]

lemma Board.setCell_spec (b b' : Board) (r c : Int) (ch : Char)
    (h : b.setCell r c ch = some b') :
    0 ≤ r ∧ 0 ≤ c ∧ b'.Size = b.Size ∧ b'.getCell r c = some ch ∧
    (∀ r' c' : Int, ¬(r' = r ∧ c' = c) → b'.getCell r' c' = b.getCell r' c') ∧
    (b.WF → b'.WF) := by
  rw [Board.setCell] at h
  split at h
  · exact absurd h (by simp)
  rename_i hneg
  have hrc : 0 ≤ r ∧ 0 ≤ c := by
    simp only [Bool.or_eq_true, decide_eq_true_iff] at hneg
    omega
  split at h
  · exact absurd h (by simp)
  rename_i row hrow
  split at h
  case isFalse => exact absurd h (by simp)
  rename_i hclt
  injection h with h
  subst h
  obtain ⟨hrlt, hrv⟩ := List.getElem?_eq_some.mp hrow
  have hclt' : c.toNat < row.length := by simpa using hclt
  refine ⟨hrc.1, hrc.2, rfl, ?_, ?_, ?_⟩
  · rw [Board.getCell,
      if_neg (by simp only [Bool.or_eq_true, decide_eq_true_iff]; omega),
      List.getElem?_set_self hrlt, Option.some_bind, List.getElem?_set_self hclt']
  · intro r' c' hne
    rw [Board.getCell, Board.getCell]
    by_cases hneg' : (decide (r' < 0) || decide (c' < 0)) = true
    · rw [if_pos hneg', if_pos hneg']
    rw [if_neg hneg', if_neg hneg']
    have h0 : 0 ≤ r' ∧ 0 ≤ c' := by
      simp only [Bool.or_eq_true, decide_eq_true_iff] at hneg'
      omega
    by_cases hr' : r'.toNat = r.toNat
    · have hr'' : r' = r := by omega
      subst hr''
      have hc' : ¬c' = c := fun hc => hne ⟨rfl, hc⟩
      have hcn : c.toNat ≠ c'.toNat := by omega
      rw [hr', List.getElem?_set_self hrlt, Option.some_bind, hrow,
        Option.some_bind, List.getElem?_set_ne hcn]
    · rw [List.getElem?_set_ne (fun he => hr' he.symm)]
  · rintro ⟨hlen, hrows⟩
    refine ⟨by simpa [List.length_set] using hlen, ?_⟩
    intro row' hmem
    rcases List.mem_or_eq_of_mem_set hmem with hm | hEq
    · exact hrows _ hm
    · rw [hEq, List.length_set, ← hrv]
      exact hrows _ (List.getElem_mem hrlt)

lemma NewBoard_getCell (n : Int) (i j : Nat) (ch : Char)
    (h : (NewBoard n).getCell i j = some ch) : ch = '.' := by
  rw [Board.getCell] at h
  split at h
  · exact absurd h (by simp)
  simp only [NewBoard] at h
  rw [List.getElem?_replicate] at h
  by_cases hi : ((i : Int)).toNat < n.toNat
  · rw [if_pos hi, Option.some_bind, List.getElem?_replicate] at h
    by_cases hj : ((j : Int)).toNat < n.toNat
    · rw [if_pos hj] at h
      exact (Option.some.inj h).symm
    · rw [if_neg hj] at h
      exact absurd h (by simp)
  · rw [if_neg hi, Option.none_bind] at h
    exact absurd h (by simp)

lemma Game.takeShot_over (g : Game) (r c : Int) (hO : g.Over = true) :
    g.TakeShot r c = some (.error .GameAlreadyOver, g) := by
  rw [Game.TakeShot, if_pos hO]

lemma Game.takeShot_oob (g : Game) (r c : Int) (hO : g.Over = false)
    (hin : g.Board.InBounds r c = false) :
    g.TakeShot r c = some (.error .OutOfBounds, g) := by
  rw [Game.TakeShot, if_neg (by simp [hO]), if_pos (by simp [hin])]

lemma Game.takeShot_hit_eq (g : Game) (r c : Int) (hO : g.Over = false)
    (hin : g.Board.InBounds r c = true)
    (hpos : g.Ship.Position = (r, c)) (halive : g.Ship.Alive = true)
    (b' : Battleship.Board)
    (hset : g.Board.setCell r c (if g.Ship.TakeHit.1 then 'X' else 'H') = some b') :
    g.TakeShot r c =
      some (.ok { Hit := true, Destroyed := g.Ship.TakeHit.1 },
        { Board := b', Ship := g.Ship.TakeHit.2,
          Over := g.Ship.TakeHit.1, Shots := g.Shots + 1 }) := by
  rw [Game.TakeShot, if_neg (by simp [hO]), if_neg (by simp [hin])]
  simp only [hpos, halive, hO, hset]
  simp

lemma Game.miss_guard (g : Game) (r c : Int)
    (hmiss : g.Ship.Position ≠ (r, c) ∨ g.Ship.Alive = false) :
    (decide (r = (g.Ship.Position).1) && decide (c = (g.Ship.Position).2) &&
      g.Ship.Alive) = false := by
  rcases hmiss with hp | ha
  · have hne : ¬(r = (g.Ship.Position).1 ∧ c = (g.Ship.Position).2) := by
      rintro ⟨h1, h2⟩
      exact hp (Prod.ext_iff.mpr ⟨h1.symm, h2.symm⟩)
    rcases not_and_or.mp hne with h | h
    · simp [h]
    · simp [h]
  · simp [ha]

lemma Game.takeShot_miss_empty (g : Game) (r c : Int) (hO : g.Over = false)
    (hin : g.Board.InBounds r c = true)
    (hguard : (decide (r = (g.Ship.Position).1) &&
      decide (c = (g.Ship.Position).2) && g.Ship.Alive) = false)
    (hget : g.Board.getCell r c = some '.')
    (b' : Battleship.Board) (hset : g.Board.setCell r c 'o' = some b') :
    g.TakeShot r c = some (.ok { Hit := false, Destroyed := false },
      { g with Board := b', Shots := g.Shots + 1 }) := by
  rw [Game.TakeShot, if_neg (by simp [hO]), if_neg (by simp [hin])]
  simp only [hguard, hget, hset]
  simp

lemma Game.takeShot_miss_marked (g : Game) (r c : Int) (hO : g.Over = false)
    (hin : g.Board.InBounds r c = true)
    (hguard : (decide (r = (g.Ship.Position).1) &&
      decide (c = (g.Ship.Position).2) && g.Ship.Alive) = false)
    (ch : Char) (hget : g.Board.getCell r c = some ch)
    (hch : (ch == '.') = false) :
    g.TakeShot r c = some (.ok { Hit := false, Destroyed := false },
      { g with Shots := g.Shots + 1 }) := by
  rw [Game.TakeShot, if_neg (by simp [hO]), if_neg (by simp [hin])]
  simp only [hguard, hget, hch]
  simp

lemma Game.takeShot_hit_pack (g : Game) (r c : Int) (hW : g.Board.WF)
    (hO : g.Over = false) (hin : g.Board.InBounds r c = true)
    (hpos : g.Ship.Position = (r, c)) (halive : g.Ship.Alive = true) :
    ∃ g', g.TakeShot r c =
        some (.ok { Hit := true, Destroyed := g.Ship.TakeHit.1 }, g') ∧
      g'.Shots = g.Shots + 1 ∧ g'.Ship = g.Ship.TakeHit.2 ∧
      g'.Board.getCell r c = some (if g.Ship.TakeHit.1 then 'X' else 'H') ∧
      g'.Over = g.Ship.TakeHit.1 := by
  obtain ⟨b', hset⟩ :=
    g.Board.setCell_isSome hW r c hin (if g.Ship.TakeHit.1 then 'X' else 'H')
  obtain ⟨_, _, _, hcell, _, _⟩ := Board.setCell_spec _ _ _ _ _ hset
  exact ⟨_, Game.takeShot_hit_eq g r c hO hin hpos halive b' hset,
    rfl, rfl, hcell, rfl⟩

lemma Game.takeShot_miss_pack (g : Game) (r c : Int) (hW : g.Board.WF)
    (hO : g.Over = false) (hin : g.Board.InBounds r c = true)
    (hmiss : g.Ship.Position ≠ (r, c) ∨ g.Ship.Alive = false) :
    ∃ g', g.TakeShot r c = some (.ok { Hit := false, Destroyed := false }, g') ∧
      g'.Shots = g.Shots + 1 ∧
      (g.Board.getCell r c = some '.' → g'.Board.getCell r c = some 'o') ∧
      (∀ ch : Char, g.Board.getCell r c = some ch → ch ≠ '.' →
        g'.Board = g.Board) ∧
      g'.Ship = g.Ship ∧ g'.Over = g.Over := by
  have hguard := Game.miss_guard g r c hmiss
  obtain ⟨ch, hget⟩ := g.Board.getCell_isSome hW r c hin
  by_cases hch : ch = '.'
  · subst hch
    obtain ⟨b', hset⟩ := g.Board.setCell_isSome hW r c hin 'o'
    obtain ⟨_, _, _, hcell, _, _⟩ := Board.setCell_spec _ _ _ _ _ hset
    refine ⟨_, Game.takeShot_miss_empty g r c hO hin hguard hget b' hset,
      rfl, fun _ => hcell, ?_, rfl, rfl⟩
    intro ch' hget' hne
    rw [hget] at hget'
    exact absurd (Option.some.inj hget').symm hne
  · refine ⟨_, Game.takeShot_miss_marked g r c hO hin hguard ch hget
      (by simp [hch]), rfl, ?_, fun _ _ _ => rfl, rfl, rfl⟩
    intro hdot
    rw [hget] at hdot
    exact absurd (Option.some.inj hdot) hch

/-- C6: a fresh `BasicShip` is destroyed by exactly one `TakeHit` (it
returns `true` and the ship is no longer alive); an `ArmoredShip` with
armor `A ≥ 1` needs exactly `A` calls: each of the first `A - 1` calls
returns `false`, the `A`-th returns `true`, and throughout `Alive` holds
iff the remaining armor is positive. -/
theorem ship_destruction_counts (r c A : Int) (hA : 1 ≤ A) :
    ((NewBasicShip r c).TakeHit.1 = true ∧
      (NewBasicShip r c).TakeHit.2.Alive = false) ∧
    (∀ k : Nat, (k : Int) + 1 < A →
      ((NewArmoredShip r c A).hitN k).TakeHit.1 = false) ∧
    ((NewArmoredShip r c A).hitN (A.toNat - 1)).TakeHit.1 = true ∧
    (∀ k : Nat,
      (((NewArmoredShip r c A).hitN k).Alive = true ↔
        0 < ((NewArmoredShip r c A).hitN k).Armor)) := by
  refine ⟨⟨?_, ?_⟩, ?_, ?_, ?_⟩
  · simp [NewBasicShip, BasicShip.TakeHit]
  · simp [NewBasicShip, BasicShip.TakeHit, BasicShip.Alive]
  · intro k hk
    have harm : ((NewArmoredShip r c A).hitN k).Armor = A - k :=
      ArmoredShip.hitN_armor _ k (by simpa [NewArmoredShip] using by omega)
    have hpos : 0 < ((NewArmoredShip r c A).hitN k).Armor := by rw [harm]; omega
    rw [ArmoredShip.takeHit_of_pos _ hpos]
    simp only [decide_eq_false_iff_not, not_le]
    omega
  · have hk : ((A.toNat - 1 : Nat) : Int) ≤ (NewArmoredShip r c A).Armor := by
      simp only [NewArmoredShip]
      omega
    have harm := ArmoredShip.hitN_armor (NewArmoredShip r c A) (A.toNat - 1) hk
    have harm1 : ((NewArmoredShip r c A).hitN (A.toNat - 1)).Armor = 1 := by
      rw [harm]; simp only [NewArmoredShip]; omega
    rw [ArmoredShip.takeHit_of_pos _ (by omega), harm1]
    simp
  · intro k
    simp [ArmoredShip.Alive]

theorem ship_destruction_counts_witness :
    (1 : Int) ≤ 2 ∧
    ((NewArmoredShip 0 0 2).hitN ((2 : Int).toNat - 1)).TakeHit.1 = true :=
  ⟨by decide, (ship_destruction_counts 0 0 2 (by decide)).2.2.1⟩

/-- C7: `TakeHit` on a ship whose remaining hitpoints are already zero
or below leaves the ship unchanged and returns `true`, for both ship
kinds; repeated calls on a destroyed ship are therefore no-ops. -/
theorem takeHit_dead_noop (s : BasicShip) (t : ArmoredShip)
    (hs : s.hp ≤ 0) (ht : t.Armor ≤ 0) :
    s.TakeHit = (true, s) ∧ t.TakeHit = (true, t) := by
  constructor
  · rw [BasicShip.TakeHit, if_pos hs]
  · rw [ArmoredShip.TakeHit, if_pos ht]

theorem takeHit_dead_noop_witness :
    ({ Row := 0, Col := 0, hp := 0 } : BasicShip).hp ≤ 0 ∧
    ({ Row := 1, Col := 1, Armor := -2 } : ArmoredShip).Armor ≤ 0 ∧
    ({ Row := 0, Col := 0, hp := 0 } : BasicShip).TakeHit =
      (true, { Row := 0, Col := 0, hp := 0 }) ∧
    ({ Row := 1, Col := 1, Armor := -2 } : ArmoredShip).TakeHit =
      (true, { Row := 1, Col := 1, Armor := -2 }) := by
  refine ⟨by decide, by decide, ?_⟩
  have h := takeHit_dead_noop { Row := 0, Col := 0, hp := 0 }
    { Row := 1, Col := 1, Armor := -2 } (by decide) (by decide)
  exact h

/-- C8: `InBounds` returns `true` exactly when `0 ≤ r < Size` and
`0 ≤ c < Size`. -/
theorem inBounds_iff (b : Board) (r c : Int) :
    b.InBounds r c = true ↔ (0 ≤ r ∧ r < b.Size ∧ 0 ≤ c ∧ c < b.Size) := by
  simp [Board.InBounds, and_assoc, ge_iff_le]

lemma Game.takeShot_cellInv (g : Game) (r c : Int)
    (out : Except ShotError ShotResult) (g' : Game)
    (h : g.TakeShot r c = some (out, g')) (hInv : g.CellInv) :
    g'.CellInv ∧ g'.Ship.Position = g.Ship.Position := by
  simp only [Game.TakeShot] at h
  split at h
  · injection h with h
    injection h with h1 h2
    subst h2
    exact ⟨hInv, rfl⟩
  split at h
  · injection h with h
    injection h with h1 h2
    subst h2
    exact ⟨hInv, rfl⟩
  split at h
  · rename_i hguard
    obtain ⟨⟨hr1, hc1⟩, halive⟩ : (r = (g.Ship.Position).1 ∧
        c = (g.Ship.Position).2) ∧ g.Ship.Alive = true := by
      simpa using hguard
    split at h
    · exact absurd h (by simp)
    rename_i b' hset
    injection h with h
    injection h with h1 h2
    subst h2
    obtain ⟨hr0, hc0, hSize, hcell, hother, hWFp⟩ :=
      Board.setCell_spec _ _ _ _ _ hset
    have hshippos : (Ship.TakeHit g.Ship).2.Position = g.Ship.Position :=
      Ship.takeHit_position g.Ship
    refine ⟨?_, hshippos⟩
    intro i j ch hch
    by_cases hij : ((i : Int) = r ∧ (j : Int) = c)
    · obtain ⟨hi, hj⟩ := hij
      rw [hi, hj] at hch
      have hchv : (if (g.Ship.TakeHit).1 = true then 'X' else 'H') = ch :=
        Option.some.inj (hcell.symm.trans hch)
      constructor
      · by_cases hd : (g.Ship.TakeHit).1 = true
        · rw [if_pos hd] at hchv
          exact .inr (.inr (.inr hchv.symm))
        · rw [if_neg hd] at hchv
          exact .inr (.inr (.inl hchv.symm))
      · intro hne
        exact absurd (by
          rw [hshippos, Prod.ext_iff]
          exact ⟨(hr1.symm.trans hi.symm : _), (hc1.symm.trans hj.symm : _)⟩) hne
    · rw [hother _ _ hij] at hch
      obtain ⟨hmark, hrest⟩ := hInv i j ch hch
      refine ⟨hmark, fun hne => hrest ?_⟩
      rw [hshippos] at hne
      exact hne
  · rename_i hguard
    split at h
    · exact absurd h (by simp)
    rename_i ch0 hget
    split at h
    · rename_i hdot
      split at h
      · exact absurd h (by simp)
      rename_i b' hset
      injection h with h
      injection h with h1 h2
      subst h2
      obtain ⟨hr0, hc0, hSize, hcell, hother, hWFp⟩ :=
        Board.setCell_spec _ _ _ _ _ hset
      refine ⟨?_, rfl⟩
      intro i j ch hch
      by_cases hij : ((i : Int) = r ∧ (j : Int) = c)
      · obtain ⟨hi, hj⟩ := hij
        rw [hi, hj] at hch
        have hchv : ch = 'o' := (Option.some.inj (hcell.symm.trans hch)).symm
        exact ⟨.inr (.inl hchv), fun _ => .inr hchv⟩
      · rw [hother _ _ hij] at hch
        exact hInv i j ch hch
    · injection h with h
      injection h with h1 h2
      subst h2
      exact ⟨fun i j ch hch => hInv i j ch hch, rfl⟩

lemma Game.runShots_cellInv (g : Game) (l : List (Int × Int)) (hInv : g.CellInv) :
    (g.runShots l).CellInv ∧ (g.runShots l).Ship.Position = g.Ship.Position := by
  induction l generalizing g with
  | nil => exact ⟨hInv, rfl⟩
  | cons p rest ih =>
    obtain ⟨r, c⟩ := p
    cases htake : g.TakeShot r c with
    | none =>
      simp only [Game.runShots, htake]
      exact ih g hInv
    | some pr =>
      obtain ⟨out, g1⟩ := pr
      obtain ⟨h1, h2⟩ := Game.takeShot_cellInv g r c out g1 htake hInv
      obtain ⟨h3, h4⟩ := ih g1 h1
      simp only [Game.runShots, htake]
      exact ⟨h3, h4.trans h2⟩

/-- C1: on a live game, for an in-bounds shot at the position of a live
ship, `TakeShot` reports a hit and invokes `TakeHit`: if `TakeHit`
returns `true` the cell becomes `'X'`, the game transitions to `Over`
and the result is `{hit := true, destroyed := true}`; otherwise the
cell becomes `'H'`, the game stays live and the result is
`{hit := true, destroyed := false}`.  The updated ship is exactly the
one `TakeHit` produced. -/
theorem takeShot_hit_resolution (g : Game) (r c : Int) (hW : g.Board.WF)
    (hO : g.Over = false) (hin : g.Board.InBounds r c = true)
    (hpos : g.Ship.Position = (r, c)) (halive : g.Ship.Alive = true) :
    ∃ g', g.TakeShot r c =
        some (.ok { Hit := true, Destroyed := g.Ship.TakeHit.1 }, g') ∧
      g'.Ship = g.Ship.TakeHit.2 ∧
      (g.Ship.TakeHit.1 = true →
        g'.Board.getCell r c = some 'X' ∧ g'.Over = true) ∧
      (g.Ship.TakeHit.1 = false →
        g'.Board.getCell r c = some 'H' ∧ g'.Over = false) := by
  obtain ⟨g', heq, hshots, hship, hcell, hover⟩ :=
    Game.takeShot_hit_pack g r c hW hO hin hpos halive
  refine ⟨g', heq, hship, ?_, ?_⟩
  · intro hd
    exact ⟨by rw [hd] at hcell; simpa using hcell, by rw [hover, hd]⟩
  · intro hd
    exact ⟨by rw [hd] at hcell; simpa using hcell, by rw [hover, hd]⟩

theorem takeShot_hit_resolution_witness :
    (NewGame 1 (.basic (NewBasicShip 0 0))).Board.WF ∧
    (NewGame 1 (.basic (NewBasicShip 0 0))).Over = false ∧
    (NewGame 1 (.basic (NewBasicShip 0 0))).Board.InBounds 0 0 = true ∧
    (NewGame 1 (.basic (NewBasicShip 0 0))).Ship.Position = (0, 0) ∧
    (NewGame 1 (.basic (NewBasicShip 0 0))).Ship.Alive = true ∧
    (∃ g', (NewGame 1 (.basic (NewBasicShip 0 0))).TakeShot 0 0 =
        some (.ok ⟨true, ((NewGame 1 (.basic (NewBasicShip 0 0))).Ship.TakeHit).1⟩,
          g') ∧
      g'.Ship = ((NewGame 1 (.basic (NewBasicShip 0 0))).Ship.TakeHit).2 ∧
      (((NewGame 1 (.basic (NewBasicShip 0 0))).Ship.TakeHit).1 = true →
        g'.Board.getCell 0 0 = some 'X' ∧ g'.Over = true) ∧
      (((NewGame 1 (.basic (NewBasicShip 0 0))).Ship.TakeHit).1 = false →
        g'.Board.getCell 0 0 = some 'H' ∧ g'.Over = false)) :=
  ⟨by decide, by decide, by decide, by decide, by decide,
    takeShot_hit_resolution (NewGame 1 (.basic (NewBasicShip 0 0))) 0 0
      (by decide) (by decide) (by decide) (by decide) (by decide)⟩

/-- C2: on a live game, an in-bounds shot that is not a hit (wrong
coordinate, or the ship there is no longer alive) reports
`{hit := false, destroyed := false}`; it turns an empty cell (`'.'`)
into a miss marker (`'o'`) and leaves a board whose target cell holds
any other marker completely unchanged. -/
theorem takeShot_miss_resolution (g : Game) (r c : Int) (hW : g.Board.WF)
    (hO : g.Over = false) (hin : g.Board.InBounds r c = true)
    (hmiss : g.Ship.Position ≠ (r, c) ∨ g.Ship.Alive = false) :
    ∃ g', g.TakeShot r c = some (.ok { Hit := false, Destroyed := false }, g') ∧
      (g.Board.getCell r c = some '.' → g'.Board.getCell r c = some 'o') ∧
      (∀ ch : Char, g.Board.getCell r c = some ch → ch ≠ '.' →
        g'.Board = g.Board) := by
  obtain ⟨g', heq, _, hdot, hkeep, _, _⟩ :=
    Game.takeShot_miss_pack g r c hW hO hin hmiss
  exact ⟨g', heq, hdot, hkeep⟩

theorem takeShot_miss_resolution_witness :
    (NewGame 2 (.armored (NewArmoredShip 1 1 0))).Board.WF ∧
    (NewGame 2 (.armored (NewArmoredShip 1 1 0))).Over = false ∧
    (NewGame 2 (.armored (NewArmoredShip 1 1 0))).Board.InBounds 1 1 = true ∧
    ((NewGame 2 (.armored (NewArmoredShip 1 1 0))).Ship.Position ≠ (1, 1) ∨
      (NewGame 2 (.armored (NewArmoredShip 1 1 0))).Ship.Alive = false) ∧
    (∃ g', (NewGame 2 (.armored (NewArmoredShip 1 1 0))).TakeShot 1 1 =
        some (.ok { Hit := false, Destroyed := false }, g') ∧
      ((NewGame 2 (.armored (NewArmoredShip 1 1 0))).Board.getCell 1 1 =
          some '.' → g'.Board.getCell 1 1 = some 'o') ∧
      (∀ ch : Char,
        (NewGame 2 (.armored (NewArmoredShip 1 1 0))).Board.getCell 1 1 =
          some ch → ch ≠ '.' →
        g'.Board = (NewGame 2 (.armored (NewArmoredShip 1 1 0))).Board)) :=
  ⟨by decide, by decide, by decide, by decide,
    takeShot_miss_resolution (NewGame 2 (.armored (NewArmoredShip 1 1 0))) 1 1
      (by decide) (by decide) (by decide) (.inr (by decide))⟩

/-- C3: a shot on a terminal (`Over`) game fails with the
`GameAlreadyOver` error and the shot counter, the board and the ship are
exactly as before the call. -/
theorem takeShot_terminal_rejected (g : Game) (r c : Int) (hO : g.Over = true) :
    ∃ gAfter, g.TakeShot r c = some (.error .GameAlreadyOver, gAfter) ∧
      gAfter.Shots = g.Shots ∧ gAfter.Board = g.Board ∧ gAfter.Ship = g.Ship :=
  ⟨g, Game.takeShot_over g r c hO, rfl, rfl, rfl⟩

theorem takeShot_terminal_rejected_witness :
    (Game.mk (NewBoard 2) (.basic (NewBasicShip 0 0)) true 7).Over = true ∧
    (∃ gAfter,
      (Game.mk (NewBoard 2) (.basic (NewBasicShip 0 0)) true 7).TakeShot 0 0 =
        some (.error .GameAlreadyOver, gAfter) ∧
      gAfter.Shots = 7 ∧ gAfter.Board = NewBoard 2 ∧
      gAfter.Ship = .basic (NewBasicShip 0 0)) :=
  ⟨by decide,
    takeShot_terminal_rejected
      (Game.mk (NewBoard 2) (.basic (NewBasicShip 0 0)) true 7) 0 0
      (by decide)⟩

/-- C4: a shot with out-of-bounds coordinates on a live game fails with
the `OutOfBounds` error and the shot counter, the board and the ship
are exactly as before the call. -/
theorem takeShot_outOfBounds_rejected (g : Game) (r c : Int)
    (hO : g.Over = false) (hin : g.Board.InBounds r c = false) :
    ∃ gAfter, g.TakeShot r c = some (.error .OutOfBounds, gAfter) ∧
      gAfter.Shots = g.Shots ∧ gAfter.Board = g.Board ∧ gAfter.Ship = g.Ship :=
  ⟨g, Game.takeShot_oob g r c hO hin, rfl, rfl, rfl⟩

theorem takeShot_outOfBounds_rejected_witness :
    (NewGame 5 (.basic (NewBasicShip 0 0))).Over = false ∧
    (NewGame 5 (.basic (NewBasicShip 0 0))).Board.InBounds 5 5 = false ∧
    (∃ gAfter, (NewGame 5 (.basic (NewBasicShip 0 0))).TakeShot 5 5 =
        some (.error .OutOfBounds, gAfter) ∧
      gAfter.Shots = (NewGame 5 (.basic (NewBasicShip 0 0))).Shots ∧
      gAfter.Board = (NewGame 5 (.basic (NewBasicShip 0 0))).Board ∧
      gAfter.Ship = (NewGame 5 (.basic (NewBasicShip 0 0))).Ship) :=
  ⟨by decide, by decide,
    takeShot_outOfBounds_rejected (NewGame 5 (.basic (NewBasicShip 0 0))) 5 5
      (by decide) (by decide)⟩

/-- C5: every accepted shot (live game, in-bounds coordinates) succeeds
and increments the shot counter by exactly one, whatever the outcome. -/
theorem takeShot_shot_counter (g : Game) (r c : Int) (hW : g.Board.WF)
    (hO : g.Over = false) (hin : g.Board.InBounds r c = true) :
    ∃ res g', g.TakeShot r c = some (.ok res, g') ∧
      g'.Shots = g.Shots + 1 := by
  by_cases hhit : g.Ship.Position = (r, c) ∧ g.Ship.Alive = true
  · obtain ⟨g', heq, hshots, _⟩ :=
      Game.takeShot_hit_pack g r c hW hO hin hhit.1 hhit.2
    exact ⟨_, g', heq, hshots⟩
  · have hmiss : g.Ship.Position ≠ (r, c) ∨ g.Ship.Alive = false := by
      rcases not_and_or.mp hhit with hx | hx
      · exact .inl hx
      · exact .inr (by simpa using hx)
    obtain ⟨g', heq, hshots, _⟩ :=
      Game.takeShot_miss_pack g r c hW hO hin hmiss
    exact ⟨_, g', heq, hshots⟩

theorem takeShot_shot_counter_witness :
    (NewGame 3 (.armored (NewArmoredShip 1 1 2))).Board.WF ∧
    (NewGame 3 (.armored (NewArmoredShip 1 1 2))).Over = false ∧
    (NewGame 3 (.armored (NewArmoredShip 1 1 2))).Board.InBounds 1 1 = true ∧
    (∃ res g', (NewGame 3 (.armored (NewArmoredShip 1 1 2))).TakeShot 1 1 =
        some (.ok res, g') ∧
      g'.Shots = (NewGame 3 (.armored (NewArmoredShip 1 1 2))).Shots + 1) :=
  ⟨by decide, by decide, by decide,
    takeShot_shot_counter (NewGame 3 (.armored (NewArmoredShip 1 1 2))) 1 1
      (by decide) (by decide) (by decide)⟩

/-- C9: starting from a fresh game, after any sequence of shots every
board cell holds one of `'.'`, `'o'`, `'H'`, `'X'`; the markers `'H'`
and `'X'` can appear only at the ship's position, which never moves:
every other cell holds `'.'` or `'o'`. -/
theorem board_marker_invariant (size : Int) (ship : Ship)
    (l : List (Int × Int)) :
    ((NewGame size ship).runShots l).CellInv ∧
    ((NewGame size ship).runShots l).Ship.Position = ship.Position := by
  have h0 : (NewGame size ship).CellInv := by
    intro i j ch hch
    have hd := NewBoard_getCell size i j ch hch
    subst hd
    exact ⟨.inl rfl, fun _ => .inl rfl⟩
  simpa using Game.runShots_cellInv (NewGame size ship) l h0

/-- C10: for a well-formed board (as every board built by `NewBoard`
is), `TakeShot` never performs an out-of-range access on the cell grid:
its embedding never returns `none`, for all integer coordinates
including negative and arbitrarily large ones. -/
theorem takeShot_no_panic (g : Game) (r c : Int) (hW : g.Board.WF) :
    g.TakeShot r c ≠ none := by
  by_cases hO : g.Over = true
  · rw [Game.takeShot_over g r c hO]
    simp
  · have hO' : g.Over = false := by simpa using hO
    by_cases hin : g.Board.InBounds r c = true
    · by_cases hhit : g.Ship.Position = (r, c) ∧ g.Ship.Alive = true
      · obtain ⟨g', heq, _⟩ :=
          Game.takeShot_hit_pack g r c hW hO' hin hhit.1 hhit.2
        rw [heq]
        simp
      · have hmiss : g.Ship.Position ≠ (r, c) ∨ g.Ship.Alive = false := by
          rcases not_and_or.mp hhit with hx | hx
          · exact .inl hx
          · exact .inr (by simpa using hx)
        obtain ⟨g', heq, _⟩ := Game.takeShot_miss_pack g r c hW hO' hin hmiss
        rw [heq]
        simp
    · rw [Game.takeShot_oob g r c hO' (by simpa using hin)]
      simp

theorem takeShot_no_panic_witness :
    (NewGame 5 (.basic (NewBasicShip 2 3))).Board.WF ∧
    (NewGame 5 (.basic (NewBasicShip 2 3))).TakeShot (-7) 100 ≠ none :=
  ⟨by decide,
    takeShot_no_panic (NewGame 5 (.basic (NewBasicShip 2 3))) (-7) 100
      (by decide)⟩

end Battleship
